import Mathlib

/-!
Verification of the NetSuite External URL Proxy server (src/proxy/server.js)
against its design specification.

The development shallowly embeds the per-request behaviour of the server:
  - the WHATWG URL parser used by isValidUrl and forwardRequest
    (Node's global URL class), restricted to the fragments the server
    touches (protocol, hostname, port, pathname, search);
  - the UTF-8 decode (Buffer.prototype.toString) and encode
    (response write of a JS string) steps through which request and
    response bodies pass;
  - the header object literal built in forwardRequest and Node's
    case-insensitive setHeader semantics applied to it by
    http.request / https.request;
  - the handler control flow of handleProxy and forwardRequest with the
    target's behaviour (respond / fail / never answer) as an explicit
    parameter.

Machine-relevant conventions: bytes and Unicode code points are Nat,
JS strings are lists of code points, header maps are insertion-ordered
association lists.
-/

namespace Proxy

/-! ## UTF-8 codec (model of Buffer.toString('utf8') and of writing a JS string)

The server accumulates bodies with chunk.toString() (UTF-8 decode with
U+FFFD replacement for invalid sequences, as WHATWG utf-8 decode does)
and re-encodes the accumulated string when writing it out.  We model the
decoder as one pass that returns the decoded code points together with a
validity flag; the flag is true exactly when the byte list was wholly
valid (canonical, surrogate-free, at most U+10FFFF) UTF-8.  On invalid
input the exact grouping of replacement characters is approximated
(one replacement per failed attempt); no theorem depends on that
grouping beyond single-byte invalid inputs, where it agrees with Node. -/

/-- replacement character U+FFFD emitted by the decoder on invalid input -/
def replacementChar : Nat := 0xFFFD

/-- Is the byte a UTF-8 continuation byte (0x80-0xBF)? -/
def isCont (b : Nat) : Bool := decide (0x80 ≤ b) && decide (b < 0xC0)

/-- Valid second byte of a three-byte sequence headed by b: rules out
overlong encodings (lead 0xE0) and surrogates (lead 0xED). -/
def cont3ok (b b1 : Nat) : Bool :=
  isCont b1 && (b != 0xE0 || decide (0xA0 ≤ b1)) && (b != 0xED || decide (b1 < 0xA0))

/-- Valid second byte of a four-byte sequence headed by b: rules out
overlong encodings (lead 0xF0) and code points above U+10FFFF (lead 0xF4). -/
def cont4ok (b b1 : Nat) : Bool :=
  isCont b1 && (b != 0xF0 || decide (0x90 ≤ b1)) && (b != 0xF4 || decide (b1 < 0x90))

/-- Fuelled UTF-8 decoder with replacement: returns the decoded code points
and a flag that is true iff the whole input was valid UTF-8.  The fuel only
serves structural termination; utf8DecodeAux always supplies enough of it. -/
def utf8DecodeGo : Nat → List Nat → List Nat × Bool
  | _, [] => ([], true)
  | 0, _ :: _ => ([], false)
  | fuel + 1, b :: rest =>
    if b < 0x80 then
      let p := utf8DecodeGo fuel rest
      (b :: p.1, p.2)
    else if b < 0xC2 then
      let p := utf8DecodeGo fuel rest
      (replacementChar :: p.1, false)
    else if b < 0xE0 then
      match rest with
      | b1 :: r =>
        if isCont b1 then
          let p := utf8DecodeGo fuel r
          (((b - 0xC0) * 64 + (b1 - 0x80)) :: p.1, p.2)
        else
          let p := utf8DecodeGo fuel (b1 :: r)
          (replacementChar :: p.1, false)
      | [] => ([replacementChar], false)
    else if b < 0xF0 then
      match rest with
      | b1 :: b2 :: r =>
        if cont3ok b b1 && isCont b2 then
          let p := utf8DecodeGo fuel r
          (((b - 0xE0) * 4096 + (b1 - 0x80) * 64 + (b2 - 0x80)) :: p.1, p.2)
        else
          let p := utf8DecodeGo fuel (b1 :: b2 :: r)
          (replacementChar :: p.1, false)
      | [b1] =>
        let p := utf8DecodeGo fuel [b1]
        (replacementChar :: p.1, false)
      | [] => ([replacementChar], false)
    else if b < 0xF5 then
      match rest with
      | b1 :: b2 :: b3 :: r =>
        if cont4ok b b1 && isCont b2 && isCont b3 then
          let p := utf8DecodeGo fuel r
          (((b - 0xF0) * 262144 + (b1 - 0x80) * 4096 + (b2 - 0x80) * 64 + (b3 - 0x80)) :: p.1, p.2)
        else
          let p := utf8DecodeGo fuel (b1 :: b2 :: b3 :: r)
          (replacementChar :: p.1, false)
      | [b1, b2] =>
        let p := utf8DecodeGo fuel [b1, b2]
        (replacementChar :: p.1, false)
      | [b1] =>
        let p := utf8DecodeGo fuel [b1]
        (replacementChar :: p.1, false)
      | [] => ([replacementChar], false)
    else
      let p := utf8DecodeGo fuel rest
      (replacementChar :: p.1, false)

/-- UTF-8 decode with replacement of a full byte list. -/
def utf8DecodeAux (l : List Nat) : List Nat × Bool := utf8DecodeGo l.length l

/-- The code points produced by UTF-8-decoding a byte list with replacement
(model of Buffer.toString('utf8')). -/
def utf8DecodeR (l : List Nat) : List Nat := (utf8DecodeAux l).1

/-- Was the byte list valid UTF-8 (so that decoding performed no replacement)? -/
def validUtf8 (l : List Nat) : Bool := (utf8DecodeAux l).2

/-- UTF-8 encoding of one code point (model of writing a JS string out). -/
def utf8EncodeChar (c : Nat) : List Nat :=
  if c < 0x80 then [c]
  else if c < 0x800 then [0xC0 + c / 64, 0x80 + c % 64]
  else if c < 0x10000 then [0xE0 + c / 4096, 0x80 + c / 64 % 64, 0x80 + c % 64]
  else [0xF0 + c / 262144, 0x80 + c / 4096 % 64, 0x80 + c / 64 % 64, 0x80 + c % 64]

/-- UTF-8 encoding of a code-point list. -/
def utf8Encode : List Nat → List Nat
  | [] => []
  | c :: t => utf8EncodeChar c ++ utf8Encode t

/-! ## WHATWG URL parser (model of Node's global URL class)

Both isValidUrl and forwardRequest call new URL(targetUrl); we model the
WHATWG basic URL parser on the fields the server reads: protocol (stored
here as the scheme without the trailing colon), hostname, port (the string
form, empty when absent or equal to the scheme default), pathname and
search.  Faithfulness notes:
  - special schemes (http, https, ws, wss, ftp, file) tolerate any number
    of slashes or backslashes after the colon, so e.g. ftp:/bad parses to
    ftp with host bad — exactly as new URL does;
  - a string without a leading scheme (e.g. not-a-url) fails, as new URL
    throws with no base URL;
  - IDNA/punycode, percent-decoding of hosts, IPv6 literals, dot-segment
    normalization of paths and file-URL drive letters are out of scope:
    no theorem exercises them.  ASCII hosts are lowercased as the spec
    demands (for opaque non-special hosts this lowercasing is an
    approximation, also unexercised). -/

/-- Lowercase an ASCII letter (other characters unchanged). -/
def lcChar (c : Char) : Char :=
  if 'A' ≤ c ∧ c ≤ 'Z' then Char.ofNat (c.toNat + 32) else c

/-- ASCII lowercasing of a string, the normalization JS toLowerCase performs
on ASCII header names and the URL parser performs on schemes and hosts. -/
def lcStr (s : String) : String := ⟨s.data.map lcChar⟩

def isAlphaChar (c : Char) : Bool :=
  (decide ('a' ≤ c) && decide (c ≤ 'z')) || (decide ('A' ≤ c) && decide (c ≤ 'Z'))

def isDigitChar (c : Char) : Bool := decide ('0' ≤ c) && decide (c ≤ '9')

/-- Characters allowed after the first character of a URL scheme. -/
def isSchemeChar (c : Char) : Bool :=
  isAlphaChar c || isDigitChar c || c == '+' || c == '-' || c == '.'

/-- Split scheme : rest at the first colon, validating the scheme characters. -/
def schemeSplitGo : List Char → List Char → Option (List Char × List Char)
  | _, [] => none
  | acc, c :: rest =>
    if c == ':' then some (acc.reverse, rest)
    else if isSchemeChar c then schemeSplitGo (c :: acc) rest
    else none

def isSpecialScheme (s : String) : Bool :=
  s == "http" || s == "https" || s == "ws" || s == "wss" || s == "ftp" || s == "file"

def defaultPort : String → Option Nat
  | "http" => some 80
  | "https" => some 443
  | "ws" => some 80
  | "wss" => some 443
  | "ftp" => some 21
  | _ => none

def isSlashChar (c : Char) : Bool := c == '/' || c == '\\'

/-- Forbidden host code points (the subset our theorems can meet). -/
def isForbiddenHostChar (c : Char) : Bool :=
  decide (c.toNat < 0x20) || c == ' ' || c == '<' || c == '>' || c == '^' ||
    c == '|' || c == '[' || c == ']' || decide (c.toNat == 0x7F)

/-- The host-and-port part of an authority: everything after the last
at-sign (the rest is userinfo). -/
def afterLastAt (l : List Char) : List Char := (l.splitOn '@').getLastD l

def digitsVal (l : List Char) : Nat := l.foldl (fun a c => a * 10 + (c.toNat - 48)) 0

/-- Parsed URL record, the fields of a Node URL object the server reads.
scheme is the protocol without its trailing colon, port is the string URL.port
(empty when defaulted), search includes its leading question mark or is empty. -/
structure URLRec where
  scheme : String
  hostname : String
  port : String
  pathname : String
  search : String
deriving DecidableEq, Repr

/-- Parse host[:port] out of an authority, with the WHATWG failure cases:
forbidden host characters, empty host (unless allowed), non-numeric or
out-of-range port.  The port defaults (empty string) when absent, empty,
or equal to the scheme's default port. -/
def parseHostPort (scheme : String) (allowEmptyHost : Bool) (auth : List Char) :
    Option (String × String) :=
  let hostport := afterLastAt auth
  let hostChars := hostport.takeWhile (fun c => c != ':')
  let portPart := hostport.dropWhile (fun c => c != ':')
  if hostChars.any isForbiddenHostChar then none
  else if hostChars.isEmpty && !allowEmptyHost then none
  else
    let hostname := String.mk (hostChars.map lcChar)
    match portPart with
    | [] => some (hostname, "")
    | _ :: ds =>
      if ds.isEmpty then some (hostname, "")
      else if ds.all isDigitChar then
        let n := digitsVal ds
        if n < 65536 then
          if defaultPort scheme = some n then some (hostname, "")
          else some (hostname, toString n)
        else none
      else none

/-- Does the path continue at this character (it stops at query or fragment)? -/
def notPQ (c : Char) : Bool := c != '?' && c != '#'

def bsToSlash (c : Char) : Char := if c == '\\' then '/' else c

/-- URL.search: the query with its leading question mark, empty when the
query is absent or empty; drops any fragment. -/
def searchOf : List Char → String
  | '?' :: q =>
    let qc := q.takeWhile (fun c => c != '#')
    if qc.isEmpty then "" else String.mk ('?' :: qc)
  | _ => ""

/-- Parse the part after the colon of a special-scheme URL: skip any run of
slashes and backslashes, read the authority, then path and query. -/
def parseSpecial (scheme : String) (rest : List Char) : Option URLRec :=
  let rest1 := rest.dropWhile isSlashChar
  let auth := rest1.takeWhile (fun c => !(isSlashChar c || c == '?' || c == '#'))
  let rest2 := rest1.dropWhile (fun c => !(isSlashChar c || c == '?' || c == '#'))
  match parseHostPort scheme (scheme == "file") auth with
  | none => none
  | some (host, port) =>
    let pathChars := rest2.takeWhile notPQ
    let rest3 := rest2.dropWhile notPQ
    let pathname := if pathChars.isEmpty then "/" else String.mk (pathChars.map bsToSlash)
    some ⟨scheme, host, port, pathname, searchOf rest3⟩

/-- Parse the part after the colon of a non-special-scheme URL: an authority
only after a double slash, otherwise an opaque path. -/
def parseNonSpecial (scheme : String) (rest : List Char) : Option URLRec :=
  match rest with
  | '/' :: '/' :: r =>
    let auth := r.takeWhile (fun c => !(c == '/' || c == '?' || c == '#'))
    let rest2 := r.dropWhile (fun c => !(c == '/' || c == '?' || c == '#'))
    match parseHostPort scheme true auth with
    | none => none
    | some (host, port) =>
      let pathChars := rest2.takeWhile notPQ
      let rest3 := rest2.dropWhile notPQ
      some ⟨scheme, host, port, String.mk pathChars, searchOf rest3⟩
  | _ =>
    let pathChars := rest.takeWhile notPQ
    let rest3 := rest.dropWhile notPQ
    some ⟨scheme, "", "", String.mk pathChars, searchOf rest3⟩

/-- Model of new URL(s) without a base: some record on success, none where
the constructor would throw a TypeError. -/
def parseURL (s : String) : Option URLRec :=
  match s.data with
  | [] => none
  | c :: cs =>
    if isAlphaChar c then
      match schemeSplitGo [c] cs with
      | none => none
      | some (schemeChars, rest) =>
        let scheme := lcStr (String.mk schemeChars)
        if isSpecialScheme scheme then parseSpecial scheme rest
        else parseNonSpecial scheme rest
    else none


/-! ## Header maps

Two layers, mirroring the implementation:
  - the JS object literal built in forwardRequest (spread of the inbound
    headers followed by three literal keys): a case-SENSITIVE insertion-ordered
    map, where assigning an existing key overwrites it in place and a new key
    is appended (objSet);
  - Node's ClientRequest, which copies that object into its outgoing header
    store by calling setHeader on each entry in order: a case-INSENSITIVE
    map keyed on the lowercased name, later writes overwriting earlier ones
    in place (setCI).
Node's IncomingMessage lowercases and deduplicates inbound header names, so
the inbound header list always has unique, lowercase keys (WFHeaders). -/

/-- JS object assignment on a string-keyed record: overwrite the exact key in
place or append. -/
def objSet (l : List (String × String)) (k v : String) : List (String × String) :=
  match l with
  | [] => [(k, v)]
  | p :: t => if p.1 = k then (k, v) :: t else p :: objSet t k v

/-- Node OutgoingMessage.setHeader: case-insensitive overwrite-in-place or
append, storing the latest spelling of the name. -/
def setCI (l : List (String × String)) (k v : String) : List (String × String) :=
  match l with
  | [] => [(k, v)]
  | p :: t => if lcStr p.1 = lcStr k then (k, v) :: t else p :: setCI t k v

/-- Case-insensitive header lookup (first match). -/
def findCIVal (k : String) : List (String × String) → Option String
  | [] => none
  | p :: t => if lcStr p.1 = lcStr k then some p.2 else findCIVal k t

/-- The value of the last entry whose name case-insensitively matches k. -/
def lastCIVal (k : String) (l : List (String × String)) : Option String :=
  findCIVal k l.reverse

/-- Fold a header object into an outgoing-header store via setHeader calls. -/
def applyHeaders (base : List (String × String)) (obj : List (String × String)) :
    List (String × String) :=
  obj.foldl (fun m p => setCI m p.1 p.2) base

/-- Well-formedness of a Node-produced header map: names lowercased and
deduplicated (IncomingMessage guarantees both for req.headers, and the http
parser guarantees the same for proxyRes.headers). -/
def WFHeaders (l : List (String × String)) : Prop :=
  (∀ p ∈ l, lcStr p.1 = p.1) ∧ (l.map Prod.fst).Nodup

instance (l : List (String × String)) : Decidable (WFHeaders l) := by
  unfold WFHeaders; infer_instance


/-- Left-biased choice on options. -/
def optOr {α : Type} : Option α → Option α → Option α
  | some v, _ => some v
  | none, o => o

/-! ## The server model (src/proxy/server.js)

Transcribed from the source: the CORS header block of the request handler
(lines 32-36), handleProxy (lines 70-103), forwardRequest (lines 108-172)
and isValidUrl (lines 177-184).  The network is abstracted as the behaviour
of the target (a full response, an error event, or no answer inside the
30-second window); everything the server does with it is modelled. -/

/-- Response bodies as the caller sees them: raw relayed bytes, or one of the
server's synthesized flat JSON objects (field order preserved). -/
inductive BodyModel where
  | text (bytes : List Nat)
  | json (fields : List (String × String))
deriving DecidableEq, Repr

/-- A response written to the caller: status, effective header store, body. -/
structure HttpResponse where
  status : Nat
  headers : List (String × String)
  body : BodyModel
deriving DecidableEq, Repr

/-- The res.setHeader calls at lines 32-36, executed before any handler. -/
def corsBase : List (String × String) :=
  [("Access-Control-Allow-Origin", "*"),
   ("Access-Control-Allow-Methods", "GET, POST, PUT, DELETE, OPTIONS"),
   ("Access-Control-Allow-Headers", "Content-Type, Authorization"),
   ("Access-Control-Allow-Credentials", "false"),
   ("Content-Type", "application/json")]

/-- isValidUrl (lines 177-184): new URL throws or it does not. -/
def isValidUrl (targetUrl : String) : Bool := (parseURL targetUrl).isSome

/-- JS truthiness of parsedUrl.query.url: undefined (absent) and the empty
string are both falsy. -/
def jsFalsyStr : Option String → Bool
  | none => true
  | some s => s == ""

/-- What handleProxy decides before any network activity: answer immediately
with a 400, or proceed to collect the body and call forwardRequest. -/
inductive HandleStep where
  | respond (status : Nat) (body : BodyModel)
  | forwardTo (targetUrl : String)
deriving DecidableEq, Repr

/-- The body of the missing-parameter 400 (lines 76-80). -/
def missingUrlBody : BodyModel :=
  .json [("error", "Missing URL parameter"),
         ("usage", "POST /proxy?url=https://external-api-url"),
         ("example", "POST /proxy?url=https://api.example.com/endpoint")]

/-- handleProxy (lines 70-103) up to the point where the network is touched:
truthiness check on the url query value, then isValidUrl, then forwarding. -/
def handleProxy (queryUrl : Option String) : HandleStep :=
  if jsFalsyStr queryUrl then .respond 400 missingUrlBody
  else
    let targetUrl := queryUrl.getD ""
    if isValidUrl targetUrl then .forwardTo targetUrl
    else .respond 400 (.json [("error", "Invalid URL format"), ("target", targetUrl)])

/-- The transport module picked at line 132: https or http. -/
inductive Transport where
  | plain
  | tls
deriving DecidableEq, Repr

/-- The options object passed to protocol.request (lines 112-128). -/
structure RequestOptions where
  hostname : String
  port : String
  path : String
  method : String
  headersObj : List (String × String)
  timeoutMs : Nat
deriving DecidableEq, Repr

/-- The proxy's fixed user-agent string (line 121). -/
def userAgentValue : String := "NetSuite-Proxy/1.0.0 (Mozilla/5.0)"

/-- The header object literal of lines 117-126: spread of the inbound headers
(already a JS object with unique lowercase keys), then the three overrides in
source order. -/
def headersLiteral (inbound : List (String × String)) (targetHost : String) :
    List (String × String) :=
  objSet (objSet (objSet inbound "User-Agent" userAgentValue) "host" targetHost)
    "accept-encoding" "gzip, deflate"

/-- What forwardRequest does before the response comes back: either the catch
branch fires (only new URL can throw here) and a 500 is written, or an
outbound call is started with the given transport, options and body. -/
inductive ForwardAction where
  | internalFault (resp : HttpResponse)
  | call (transport : Transport) (options : RequestOptions) (bodyWritten : Option String)
deriving DecidableEq, Repr

/-- forwardRequest up to issuing protocol.request (lines 108-132 and 158-171):
re-parse the url (catch → 500 with the TypeError message), build the options
object, select the transport by protocol === https-colon, and write the
collected body only when it is a non-empty (truthy) string. -/
def forwardRequest (targetUrl method : String) (inboundHeaders : List (String × String))
    (body : String) : ForwardAction :=
  match parseURL targetUrl with
  | none =>
    .internalFault
      ⟨500, corsBase, .json [("error", "Internal server error"), ("message", "Invalid URL")]⟩
  | some u =>
    .call (if u.scheme == "https" then .tls else .plain)
      ⟨u.hostname, u.port, u.pathname ++ u.search, method,
        headersLiteral inboundHeaders u.hostname, 30000⟩
      (if body == "" then none else some body)

/-- A full response from the target as Node's http parser delivers it:
status code, (lowercased, deduplicated) headers, and the body data chunks. -/
structure TargetResponse where
  statusCode : Nat
  headers : List (String × String)
  chunks : List (List Nat)
deriving DecidableEq, Repr

/-- What the target end of the outbound call does within the 30-second
window: full response, error event (DNS failure, connection refused,
transport error), or nothing at all. -/
inductive TargetBehavior where
  | responds (r : TargetResponse)
  | fails (msg : String)
  | hangs
deriving DecidableEq, Repr

/-- What the caller observes for one outbound call: a written response, or no
response written by the 30-second mark. -/
inductive Outcome where
  | reply (resp : HttpResponse)
  | noReply
deriving DecidableEq, Repr

/-- responseBody accumulation of lines 135-139: each chunk is UTF-8-decoded
with replacement and appended to the JS string. -/
def concatDecoded (chunks : List (List Nat)) : List Nat :=
  chunks.foldl (fun acc c => acc ++ utf8DecodeR c) []

/-- The relay of lines 141-146: writeHead with the target's status and header
object (merged case-insensitively over the already-set CORS headers, the
writeHead arguments taking precedence), then end with the accumulated string,
which the socket re-encodes as UTF-8. -/
def relayResponse (r : TargetResponse) : HttpResponse :=
  ⟨r.statusCode, applyHeaders corsBase r.headers, .text (utf8Encode (concatDecoded r.chunks))⟩

/-- The error handler of lines 149-156: status 502 and the structured body. -/
def errorResponse (msg : String) : HttpResponse :=
  ⟨502, corsBase, .json [("error", "Failed to reach external URL"), ("message", msg)]⟩

/-- Run one outbound call against the target's behaviour.  The source
registers a response callback (line 134) and an error handler (line 149) on
the request; the timeout option of line 127 only arms a socket-idle timer
whose timeout event has no listener, so when the target never answers no
handler runs and nothing is ever written to the caller. -/
def runForward (act : ForwardAction) (behavior : TargetBehavior) : Outcome :=
  match act with
  | .internalFault resp => .reply resp
  | .call _ _ _ =>
    match behavior with
    | .responds r => .reply (relayResponse r)
    | .fails msg => .reply (errorResponse msg)
    | .hangs => .noReply

/-- The transport of an action, when it makes an outbound call. -/
def transportOf : ForwardAction → Option Transport
  | .internalFault _ => none
  | .call t _ _ => some t

/-- The effective outgoing header store of an action's outbound call. -/
def outboundHeaders : ForwardAction → Option (List (String × String))
  | .internalFault _ => none
  | .call _ opts _ => some (applyHeaders [] opts.headersObj)

/-- Did forwardRequest end in the catch branch (status-500 write)? -/
def isInternalFault : ForwardAction → Bool
  | .internalFault _ => true
  | .call _ _ _ => false


/-! ## Evaluation checks and supporting lemmas -/

example : utf8DecodeR [0xFF] = [0xFFFD] := by decide
example : validUtf8 [0xFF] = false := by decide
example : utf8DecodeR [104, 105] = [104, 105] := by decide
example : validUtf8 [0xE2, 0x82, 0xAC] = true := by decide
example : utf8Encode [0xFFFD] = [0xEF, 0xBF, 0xBD] := by decide
example : validUtf8 [0xED, 0xA0, 0x80] = false := by decide
example : validUtf8 [0xC0, 0xAF] = false := by decide

/-! ### Round trip: decoding valid UTF-8 and re-encoding is the identity -/

theorem utf8EncodeChar_two (b b1 : Nat) (hb : 0xC2 ≤ b) (hb' : b < 0xE0)
    (h1 : isCont b1 = true) :
    utf8EncodeChar ((b - 0xC0) * 64 + (b1 - 0x80)) = [b, b1] := by
  have h1' : 0x80 ≤ b1 ∧ b1 < 0xC0 := by
    simpa [isCont, Bool.and_eq_true, decide_eq_true_eq] using h1
  rw [utf8EncodeChar, if_neg (by omega), if_pos (by omega)]
  simp only [List.cons.injEq, and_true]
  omega

theorem utf8EncodeChar_three (b b1 b2 : Nat) (hb : 0xE0 ≤ b) (hb' : b < 0xF0)
    (h1 : cont3ok b b1 = true) (h2 : isCont b2 = true) :
    utf8EncodeChar ((b - 0xE0) * 4096 + (b1 - 0x80) * 64 + (b2 - 0x80)) = [b, b1, b2] := by
  have h1' : (0x80 ≤ b1 ∧ b1 < 0xC0) ∧ (b ≠ 0xE0 ∨ 0xA0 ≤ b1) ∧ (b ≠ 0xED ∨ b1 < 0xA0) := by
    simpa [cont3ok, isCont, Bool.and_eq_true, Bool.or_eq_true, bne_iff_ne,
      decide_eq_true_eq, and_assoc] using h1
  have h2' : 0x80 ≤ b2 ∧ b2 < 0xC0 := by
    simpa [isCont, Bool.and_eq_true, decide_eq_true_eq] using h2
  rw [utf8EncodeChar, if_neg (by omega), if_neg (by omega), if_pos (by omega)]
  simp only [List.cons.injEq, and_true]
  omega

theorem utf8EncodeChar_four (b b1 b2 b3 : Nat) (hb : 0xF0 ≤ b) (hb' : b < 0xF5)
    (h1 : cont4ok b b1 = true) (h2 : isCont b2 = true) (h3 : isCont b3 = true) :
    utf8EncodeChar ((b - 0xF0) * 262144 + (b1 - 0x80) * 4096 + (b2 - 0x80) * 64 + (b3 - 0x80))
      = [b, b1, b2, b3] := by
  have h1' : (0x80 ≤ b1 ∧ b1 < 0xC0) ∧ (b ≠ 0xF0 ∨ 0x90 ≤ b1) ∧ (b ≠ 0xF4 ∨ b1 < 0x90) := by
    simpa [cont4ok, isCont, Bool.and_eq_true, Bool.or_eq_true, bne_iff_ne,
      decide_eq_true_eq, and_assoc] using h1
  have h2' : 0x80 ≤ b2 ∧ b2 < 0xC0 := by
    simpa [isCont, Bool.and_eq_true, decide_eq_true_eq] using h2
  have h3' : 0x80 ≤ b3 ∧ b3 < 0xC0 := by
    simpa [isCont, Bool.and_eq_true, decide_eq_true_eq] using h3
  rw [utf8EncodeChar, if_neg (by omega), if_neg (by omega), if_neg (by omega)]
  simp only [List.cons.injEq, and_true]
  omega

theorem utf8DecodeGo_sound : ∀ (fuel : Nat) (l : List Nat), l.length ≤ fuel →
    (utf8DecodeGo fuel l).2 = true → utf8Encode (utf8DecodeGo fuel l).1 = l := by
  intro fuel
  induction fuel with
  | zero =>
    intro l hl
    match l with
    | [] => intro _; rfl
    | b :: rest => simp at hl
  | succ fuel ih =>
    intro l hl
    match l with
    | [] => intro _; rfl
    | b :: rest =>
      have hr : rest.length ≤ fuel := by
        simp only [List.length_cons] at hl; omega
      by_cases h1 : b < 0x80
      · intro hv
        simp only [utf8DecodeGo, if_pos h1] at hv ⊢
        simp [utf8Encode, utf8EncodeChar, if_pos h1, ih rest hr hv]
      · by_cases h2 : b < 0xC2
        · intro hv
          simp [utf8DecodeGo, if_neg h1, if_pos h2] at hv
        · by_cases h3 : b < 0xE0
          · -- two-byte form
            match rest with
            | [] => intro hv; simp [utf8DecodeGo, if_neg h1, if_neg h2, if_pos h3] at hv
            | b1 :: r =>
              have hr' : r.length ≤ fuel := by
                simp only [List.length_cons] at hr; omega
              by_cases hc : isCont b1 = true
              · intro hv
                simp only [utf8DecodeGo, if_neg h1, if_neg h2, if_pos h3, hc, if_true] at hv ⊢
                rw [utf8Encode, ih r hr' hv, utf8EncodeChar_two b b1 (by omega) h3 hc]
                rfl
              · intro hv
                simp [utf8DecodeGo, if_neg h1, if_neg h2, if_pos h3, hc] at hv
          · by_cases h4 : b < 0xF0
            · -- three-byte form
              match rest with
              | [] => intro hv; simp [utf8DecodeGo, if_neg h1, if_neg h2, if_neg h3, if_pos h4] at hv
              | [b1] => intro hv; simp [utf8DecodeGo, if_neg h1, if_neg h2, if_neg h3, if_pos h4] at hv
              | b1 :: b2 :: r =>
                have hr' : r.length ≤ fuel := by
                  simp only [List.length_cons] at hr; omega
                by_cases hc : (cont3ok b b1 && isCont b2) = true
                · intro hv
                  obtain ⟨hc1, hc2⟩ := Bool.and_eq_true_iff.mp hc
                  simp only [utf8DecodeGo, if_neg h1, if_neg h2, if_neg h3, if_pos h4, hc,
                    if_true] at hv ⊢
                  rw [utf8Encode, ih r hr' hv,
                    utf8EncodeChar_three b b1 b2 (by omega) h4 hc1 hc2]
                  rfl
                · intro hv
                  simp [utf8DecodeGo, if_neg h1, if_neg h2, if_neg h3, if_pos h4, hc] at hv
            · by_cases h5 : b < 0xF5
              · -- four-byte form
                match rest with
                | [] =>
                  intro hv
                  simp [utf8DecodeGo, if_neg h1, if_neg h2, if_neg h3, if_neg h4, if_pos h5] at hv
                | [b1] =>
                  intro hv
                  simp [utf8DecodeGo, if_neg h1, if_neg h2, if_neg h3, if_neg h4, if_pos h5] at hv
                | [b1, b2] =>
                  intro hv
                  simp [utf8DecodeGo, if_neg h1, if_neg h2, if_neg h3, if_neg h4, if_pos h5] at hv
                | b1 :: b2 :: b3 :: r =>
                  have hr' : r.length ≤ fuel := by
                    simp only [List.length_cons] at hr; omega
                  by_cases hc : (cont4ok b b1 && isCont b2 && isCont b3) = true
                  · intro hv
                    obtain ⟨hc', hc3⟩ := Bool.and_eq_true_iff.mp hc
                    obtain ⟨hc1, hc2⟩ := Bool.and_eq_true_iff.mp hc'
                    simp only [utf8DecodeGo, if_neg h1, if_neg h2, if_neg h3, if_neg h4,
                      if_pos h5, hc, if_true] at hv ⊢
                    rw [utf8Encode, ih r hr' hv,
                      utf8EncodeChar_four b b1 b2 b3 (by omega) h5 hc1 hc2 hc3]
                    rfl
                  · intro hv
                    simp [utf8DecodeGo, if_neg h1, if_neg h2, if_neg h3, if_neg h4,
                      if_pos h5, hc] at hv
              · intro hv
                simp [utf8DecodeGo, if_neg h1, if_neg h2, if_neg h3, if_neg h4, if_neg h5] at hv

/-- Decoding a valid UTF-8 byte list and re-encoding it gives the bytes back. -/
theorem utf8_roundtrip (l : List Nat) (h : validUtf8 l = true) :
    utf8Encode (utf8DecodeR l) = l :=
  utf8DecodeGo_sound l.length l le_rfl h

example : parseURL "not-a-url" = none := by decide
example : parseURL "ftp:/bad" = some ⟨"ftp", "bad", "", "/", ""⟩ := by decide
example : parseURL "http://example.com" = some ⟨"http", "example.com", "", "/", ""⟩ := by decide
example : parseURL "https://api.example.com/endpoint?x=1"
    = some ⟨"https", "api.example.com", "", "/endpoint", "?x=1"⟩ := by decide
example : parseURL "HTTP://EXAMPLE.com:8080/A" = some ⟨"http", "example.com", "8080", "/A", ""⟩ := by
  decide
example : parseURL "http://h:80/x" = some ⟨"http", "h", "", "/x", ""⟩ := by decide
example : parseURL "mailto:foo" = some ⟨"mailto", "", "", "foo", ""⟩ := by decide
example : parseURL "http://" = none := by decide
example : parseURL "" = none := by decide
example : parseURL "http://h:99999" = none := by decide
example : parseURL "http://h:ab" = none := by decide
example : parseURL "http://user:pw@h/x" = some ⟨"http", "h", "", "/x", ""⟩ := by decide


example : handleProxy none = .respond 400 missingUrlBody := by decide
example : handleProxy (some "") = .respond 400 missingUrlBody := by decide
example : handleProxy (some "not-a-url")
    = .respond 400 (.json [("error", "Invalid URL format"), ("target", "not-a-url")]) := by decide
example : handleProxy (some "ftp:/bad") = .forwardTo "ftp:/bad" := by decide
example : transportOf (forwardRequest "https://a.example/x" "GET" [] "") = some .tls := by decide
example : transportOf (forwardRequest "ftp://x/" "GET" [] "") = some .plain := by decide
example : isInternalFault (forwardRequest "not-a-url" "GET" [] "") = true := by decide

/-! ## Header-map lemmas -/

theorem optOr_none {α : Type} (o : Option α) : optOr o none = o := by
  cases o <;> rfl

theorem optOr_assoc {α : Type} (a b c : Option α) :
    optOr (optOr a b) c = optOr a (optOr b c) := by
  cases a <;> cases b <;> rfl

theorem findCIVal_setCI_self (k K v : String) (l : List (String × String))
    (h : lcStr K = lcStr k) : findCIVal k (setCI l K v) = some v := by
  induction l with
  | nil => simp [setCI, findCIVal, h]
  | cons p t ih =>
    by_cases hp : lcStr p.1 = lcStr K
    · simp [setCI, hp, findCIVal, h]
    · have hp' : ¬ lcStr p.1 = lcStr k := fun hh => hp (hh.trans h.symm)
      simp [setCI, hp, findCIVal, hp', ih]

theorem findCIVal_setCI_ne (k K v : String) (l : List (String × String))
    (h : ¬ lcStr K = lcStr k) : findCIVal k (setCI l K v) = findCIVal k l := by
  induction l with
  | nil => simp [setCI, findCIVal, h]
  | cons p t ih =>
    by_cases hp : lcStr p.1 = lcStr K
    · have hp' : ¬ lcStr p.1 = lcStr k := fun hh => h (hp ▸ hh)
      simp [setCI, hp, findCIVal, h, hp']
    · simp [setCI, hp, findCIVal, ih]

theorem findCIVal_append (k : String) (a b : List (String × String)) :
    findCIVal k (a ++ b) = optOr (findCIVal k a) (findCIVal k b) := by
  induction a with
  | nil => simp [findCIVal, optOr]
  | cons p t ih =>
    by_cases hp : lcStr p.1 = lcStr k
    · simp [findCIVal, hp, optOr]
    · simp [findCIVal, hp, ih]

theorem lastCIVal_cons (k : String) (p : String × String) (t : List (String × String)) :
    lastCIVal k (p :: t)
      = optOr (lastCIVal k t) (if lcStr p.1 = lcStr k then some p.2 else none) := by
  rw [lastCIVal, List.reverse_cons, findCIVal_append, lastCIVal]
  by_cases hp : lcStr p.1 = lcStr k <;> simp [findCIVal, hp]

theorem lastCIVal_append_single (k K v : String) (l : List (String × String)) :
    lastCIVal k (l ++ [(K, v)])
      = if lcStr K = lcStr k then some v else lastCIVal k l := by
  rw [lastCIVal, List.reverse_append, findCIVal_append, lastCIVal]
  by_cases hK : lcStr K = lcStr k <;> simp [findCIVal, hK, optOr]

theorem findCIVal_applyHeaders (k : String) :
    ∀ (obj acc : List (String × String)),
      findCIVal k (applyHeaders acc obj) = optOr (lastCIVal k obj) (findCIVal k acc) := by
  intro obj
  induction obj with
  | nil => intro acc; simp [applyHeaders, lastCIVal, findCIVal, optOr]
  | cons p t ih =>
    intro acc
    have hstep : applyHeaders acc (p :: t) = applyHeaders (setCI acc p.1 p.2) t := rfl
    rw [hstep, ih, lastCIVal_cons, optOr_assoc]
    congr 1
    by_cases hp : lcStr p.1 = lcStr k
    · simp [hp, optOr, findCIVal_setCI_self k p.1 p.2 acc hp]
    · simp [hp, optOr, findCIVal_setCI_ne k p.1 p.2 acc hp]

theorem objSet_of_not_mem (k v : String) (l : List (String × String))
    (h : k ∉ l.map Prod.fst) : objSet l k v = l ++ [(k, v)] := by
  induction l with
  | nil => rfl
  | cons p t ih =>
    simp only [List.map_cons, List.mem_cons, not_or] at h
    have hpk : ¬ p.1 = k := fun hh => h.1 hh.symm
    simp [objSet, hpk, ih h.2]

theorem lastCIVal_objSet_ne (k K v : String) (l : List (String × String))
    (h : ¬ lcStr K = lcStr k) : lastCIVal k (objSet l K v) = lastCIVal k l := by
  induction l with
  | nil => simp [objSet, lastCIVal, findCIVal, h]
  | cons p t ih =>
    by_cases hp : p.1 = K
    · have hp' : ¬ lcStr p.1 = lcStr k := fun hh => h (hp ▸ hh)
      simp [objSet, hp, lastCIVal_cons, h, hp', optOr_none]
    · simp [objSet, hp, lastCIVal_cons, ih]

theorem lastCIVal_eq_none (k : String) (l : List (String × String))
    (h : ∀ p ∈ l, ¬ lcStr p.1 = lcStr k) : lastCIVal k l = none := by
  induction l with
  | nil => rfl
  | cons p t ih =>
    rw [lastCIVal_cons, ih (fun q hq => h q (List.mem_cons_of_mem _ hq))]
    simp [h p (List.mem_cons_self _ _), optOr]

theorem lastCIVal_objSet_self (K v : String) (l : List (String × String))
    (hexact : ∀ p ∈ l, lcStr p.1 = lcStr K → p.1 = K)
    (hnd : (l.map Prod.fst).Nodup) :
    lastCIVal K (objSet l K v) = some v := by
  induction l with
  | nil => simp [objSet, lastCIVal, findCIVal]
  | cons p t ih =>
    rw [List.map_cons, List.nodup_cons] at hnd
    by_cases hp : p.1 = K
    · have ht : ∀ q ∈ t, ¬ lcStr q.1 = lcStr K := by
        intro q hq hcontra
        have hqK : q.1 = K := hexact q (List.mem_cons_of_mem _ hq) hcontra
        exact hnd.1 (by rw [hp, ← hqK]; exact List.mem_map_of_mem _ hq)
      simp [objSet, hp, lastCIVal_cons, lastCIVal_eq_none K t ht, optOr]
    · have hexact' : ∀ q ∈ t, lcStr q.1 = lcStr K → q.1 = K :=
        fun q hq => hexact q (List.mem_cons_of_mem _ hq)
      simp [objSet, hp, lastCIVal_cons, ih hexact' hnd.2, optOr]

/-- On a well-formed (lowercase, key-deduplicated) header map, first and last
case-insensitive lookup agree. -/
theorem lastCIVal_eq_findCIVal (k : String) (l : List (String × String))
    (hw : WFHeaders l) : lastCIVal k l = findCIVal k l := by
  obtain ⟨hlc, hnd⟩ := hw
  induction l with
  | nil => rfl
  | cons p t ih =>
    rw [List.map_cons, List.nodup_cons] at hnd
    by_cases hp : lcStr p.1 = lcStr k
    · have ht : ∀ q ∈ t, ¬ lcStr q.1 = lcStr k := by
        intro q hq hcontra
        have : p.1 = q.1 := by
          rw [← hlc p (List.mem_cons_self _ _), ← hlc q (List.mem_cons_of_mem _ hq), hp, hcontra]
        exact hnd.1 (this ▸ List.mem_map_of_mem _ hq)
      rw [lastCIVal_cons, lastCIVal_eq_none k t ht]
      simp [findCIVal, hp, optOr]
    · rw [lastCIVal_cons,
        ih (fun q hq => hlc q (List.mem_cons_of_mem _ hq)) hnd.2]
      simp [findCIVal, hp, optOr_none]

/-- The outgoing header store built from the forwardRequest header literal
always carries the target's hostname as its host header, whatever (well
formed) inbound headers — host included — were supplied. -/
theorem headersLiteral_host (inbound : List (String × String)) (targetHost : String)
    (hw : WFHeaders inbound) :
    findCIVal "host" (applyHeaders [] (headersLiteral inbound targetHost))
      = some targetHost := by
  obtain ⟨hlc, hnd⟩ := hw
  have hua_notin : "User-Agent" ∉ inbound.map Prod.fst := by
    intro hmem
    obtain ⟨p, hp, hpe⟩ := List.mem_map.mp hmem
    have := hlc p hp
    rw [hpe] at this
    exact absurd this (by decide)
  have hobj1 : objSet inbound "User-Agent" userAgentValue
      = inbound ++ [("User-Agent", userAgentValue)] :=
    objSet_of_not_mem _ _ _ hua_notin
  rw [findCIVal_applyHeaders]
  simp only [findCIVal, optOr_none]
  rw [headersLiteral, lastCIVal_objSet_ne _ _ _ _ (by decide), hobj1]
  apply lastCIVal_objSet_self
  · intro p hp hlcp
    rcases List.mem_append.mp hp with hin | hone
    · rw [← hlc p hin, hlcp]; decide
    · exfalso
      have : p = ("User-Agent", userAgentValue) := by simpa using hone
      rw [this] at hlcp
      exact absurd hlcp (by decide)
  · rw [List.map_append]
    refine List.nodup_append.mpr ⟨hnd, by simp, ?_⟩
    intro a ha hb
    simp only [List.map_cons, List.map_nil, List.mem_singleton] at hb
    exact hua_notin (hb ▸ ha)

/-- The outgoing header store always carries the fixed proxy user-agent,
overriding any (well formed) inbound user-agent header. -/
theorem headersLiteral_userAgent (inbound : List (String × String)) (targetHost : String)
    (hw : WFHeaders inbound) :
    findCIVal "user-agent" (applyHeaders [] (headersLiteral inbound targetHost))
      = some userAgentValue := by
  obtain ⟨hlc, hnd⟩ := hw
  have hua_notin : "User-Agent" ∉ inbound.map Prod.fst := by
    intro hmem
    obtain ⟨p, hp, hpe⟩ := List.mem_map.mp hmem
    have := hlc p hp
    rw [hpe] at this
    exact absurd this (by decide)
  rw [findCIVal_applyHeaders]
  simp only [findCIVal, optOr_none]
  rw [headersLiteral, lastCIVal_objSet_ne _ _ _ _ (by decide),
    lastCIVal_objSet_ne _ _ _ _ (by decide),
    objSet_of_not_mem _ _ _ hua_notin,
    lastCIVal_append_single]
  rw [if_pos (by decide)]

example :
    applyHeaders [] (headersLiteral [("host", "proxy.internal"), ("user-agent", "curl")] "t.example")
      = [("host", "t.example"), ("User-Agent", userAgentValue),
         ("accept-encoding", "gzip, deflate")] := by decide

/-! ## Body-relay lemmas -/

theorem foldl_append_join {α β : Type} (f : α → List β) :
    ∀ (l : List α) (acc : List β),
      l.foldl (fun a c => a ++ f c) acc = acc ++ (l.map f).flatten := by
  intro l
  induction l with
  | nil => intro acc; simp
  | cons c t ih => intro acc; simp [ih, List.append_assoc]

theorem concatDecoded_eq (chunks : List (List Nat)) :
    concatDecoded chunks = (chunks.map utf8DecodeR).flatten := by
  simpa using foldl_append_join utf8DecodeR chunks []

theorem utf8Encode_append (a b : List Nat) :
    utf8Encode (a ++ b) = utf8Encode a ++ utf8Encode b := by
  induction a with
  | nil => rfl
  | cons c t ih => simp [utf8Encode, ih, List.append_assoc]

theorem encode_join_decoded (chunks : List (List Nat))
    (h : ∀ c ∈ chunks, validUtf8 c = true) :
    utf8Encode ((chunks.map utf8DecodeR).flatten) = chunks.flatten := by
  induction chunks with
  | nil => rfl
  | cons c t ih =>
    rw [List.map_cons, List.flatten_cons, List.flatten_cons, utf8Encode_append,
      utf8_roundtrip c (h c (List.mem_cons_self _ _)),
      ih (fun d hd => h d (List.mem_cons_of_mem _ hd))]

/-- How forwardRequest unfolds once the target url is known to parse. -/
theorem forwardRequest_eq_call (u method body : String)
    (inbound : List (String × String)) (rec : URLRec) (hp : parseURL u = some rec) :
    forwardRequest u method inbound body
      = .call (if rec.scheme == "https" then .tls else .plain)
          ⟨rec.hostname, rec.port, rec.pathname ++ rec.search, method,
            headersLiteral inbound rec.hostname, 30000⟩
          (if body == "" then none else some body) := by
  unfold forwardRequest
  rw [hp]

/-! ## The claims -/

/-- C1, counterexample.  A target answering 200 with no headers and the single
body byte 0xFF is not relayed verbatim: the body byte is decoded to U+FFFD and
re-encoded as EF BF BD, and the relayed header set also carries the CORS
headers set at lines 32-36, so neither the body nor the header set equals what
the target returned. -/
theorem c1_relay_not_verbatim :
    (relayResponse ⟨200, [], [[0xFF]]⟩).status = 200 ∧
    (relayResponse ⟨200, [], [[0xFF]]⟩).body = BodyModel.text [0xEF, 0xBF, 0xBD] ∧
    (relayResponse ⟨200, [], [[0xFF]]⟩).body ≠ BodyModel.text [0xFF] ∧
    (relayResponse ⟨200, [], [[0xFF]]⟩).headers ≠ ([] : List (String × String)) := by
  decide

/-- C1, amended.  On a successful round trip the status is copied verbatim;
every header name the target sent looks up to the target's value in the
relayed header set (which additionally carries the CORS base headers where
the target did not override them); and the body is copied verbatim exactly
when each received chunk is valid UTF-8 — the relay passes chunks through
Buffer.toString and a final re-encode, which is the identity only on valid
UTF-8 chunk boundaries. -/
theorem c1_relay_amended (r : TargetResponse) (hw : WFHeaders r.headers) :
    (relayResponse r).status = r.statusCode ∧
    (∀ k v, findCIVal k r.headers = some v →
      findCIVal k (relayResponse r).headers = some v) ∧
    ((∀ c ∈ r.chunks, validUtf8 c = true) →
      (relayResponse r).body = BodyModel.text r.chunks.flatten) := by
  refine ⟨rfl, ?_, ?_⟩
  · intro k v hfind
    show findCIVal k (applyHeaders corsBase r.headers) = some v
    rw [findCIVal_applyHeaders, lastCIVal_eq_findCIVal k r.headers hw, hfind]
    rfl
  · intro hvalid
    show BodyModel.text (utf8Encode (concatDecoded r.chunks)) = _
    rw [concatDecoded_eq, encode_join_decoded r.chunks hvalid]

/-- C1 witness: a 200 response with one header and the chunks "h", "€"
(the euro sign split into its own chunk) relays status, header and body. -/
theorem c1_relay_amended_witness :
    (relayResponse ⟨200, [("content-type", "text/plain")], [[104], [0xE2, 0x82, 0xAC]]⟩).status
        = 200 ∧
    findCIVal "content-type"
        (relayResponse ⟨200, [("content-type", "text/plain")], [[104], [0xE2, 0x82, 0xAC]]⟩).headers
      = some "text/plain" ∧
    (relayResponse ⟨200, [("content-type", "text/plain")], [[104], [0xE2, 0x82, 0xAC]]⟩).body
      = BodyModel.text [104, 0xE2, 0x82, 0xAC] := by
  have h := c1_relay_amended ⟨200, [("content-type", "text/plain")], [[104], [0xE2, 0x82, 0xAC]]⟩
    (by decide)
  exact ⟨h.1, h.2.1 "content-type" "text/plain" (by decide), by simpa using h.2.2 (by decide)⟩

/-- C2.  The code passes timeout 30000 in the request options but registers
no timeout listener, and a socket idle timeout only emits an event: nothing
aborts the outbound request and nothing is written to the caller when the
target never answers, so the claimed abort-and-502 behaviour does not happen.
The model evaluates the full pipeline at a concrete request whose target
stays silent past the 30-second mark: the outcome is no reply at all, not a
synthesized 502. -/
theorem c2_timeout_unhandled :
    runForward
        (forwardRequest "http://unresponsive.example/slow" "GET"
          [("host", "proxy.internal")] "")
        TargetBehavior.hangs
      = Outcome.noReply := by decide

/-- C3, counterexample.  An ftp url passes isValidUrl (new URL accepts any
scheme) and forwardRequest then selects the plain transport — the request IS
forwarded, over plain transport, rather than treated as InvalidTarget. -/
theorem c3_ftp_forwarded_plain :
    isValidUrl "ftp://wiki.example/" = true ∧
    transportOf (forwardRequest "ftp://wiki.example/" "GET" [] "")
      = some Transport.plain := by decide

/-- C3, amended.  The engine selects the encrypted transport exactly when the
parsed scheme is https; EVERY other scheme that survives validation — http,
but also ftp or any other parseable scheme — is forwarded over the plain
transport.  No InvalidTarget check exists in the engine. -/
theorem c3_transport_amended (u method body : String)
    (inbound : List (String × String)) (rec : URLRec) (hp : parseURL u = some rec) :
    transportOf (forwardRequest u method inbound body)
      = some (if rec.scheme == "https" then Transport.tls else Transport.plain) := by
  rw [forwardRequest_eq_call u method body inbound rec hp]
  rfl

/-- C3 witness: an https target goes over the encrypted transport. -/
theorem c3_transport_amended_witness :
    transportOf (forwardRequest "https://api.example.com/endpoint" "POST" [] "")
      = some Transport.tls := by
  have h := c3_transport_amended "https://api.example.com/endpoint" "POST" "" []
    ⟨"https", "api.example.com", "", "/endpoint", ""⟩ (by decide)
  simpa using h

/-- C4, counterexample.  The example value ftp:/bad IS parseable by new URL
(special schemes tolerate a single slash: it parses as host bad), so
handleProxy does not answer 400 but forwards it, and an outbound plain
transport request is made. -/
theorem c4_ftp_slash_bad_forwarded :
    handleProxy (some "ftp:/bad") = HandleStep.forwardTo "ftp:/bad" ∧
    handleProxy (some "ftp:/bad")
      ≠ HandleStep.respond 400
          (.json [("error", "Invalid URL format"), ("target", "ftp:/bad")]) ∧
    transportOf (forwardRequest "ftp:/bad" "GET" [] "") = some Transport.plain := by
  decide

/-- C4, amended.  For every nonempty url value the WHATWG parser rejects
(e.g. not-a-url), the response is the 400 with the raw value in the target
field, and no outbound request is made (the handler never reaches
forwardRequest — the respond step is terminal). -/
theorem c4_invalid_url_amended (q : String) (hne : ¬ q = "") (hp : parseURL q = none) :
    handleProxy (some q)
      = HandleStep.respond 400 (.json [("error", "Invalid URL format"), ("target", q)]) := by
  have hfalsy : jsFalsyStr (some q) = false := by
    simp only [jsFalsyStr, beq_eq_false_iff_ne, ne_eq]
    exact hne
  unfold handleProxy
  simp [hfalsy, isValidUrl, hp]

/-- C4 witness at the spec's own example not-a-url. -/
theorem c4_invalid_url_amended_witness :
    handleProxy (some "not-a-url")
      = HandleStep.respond 400
          (.json [("error", "Invalid URL format"), ("target", "not-a-url")]) :=
  c4_invalid_url_amended "not-a-url" (by decide) (by decide)

/-- C5.  For every forwarded request the outgoing host header equals the
target url's hostname, never the inbound host value, for any well-formed
(lowercased, deduplicated — as Node delivers them) inbound header set. -/
theorem c5_host_header (u method body : String) (inbound : List (String × String))
    (rec : URLRec) (hp : parseURL u = some rec) (hw : WFHeaders inbound) :
    (outboundHeaders (forwardRequest u method inbound body)).map (findCIVal "host")
      = some (some rec.hostname) := by
  rw [forwardRequest_eq_call u method body inbound rec hp]
  show some (findCIVal "host" (applyHeaders [] (headersLiteral inbound rec.hostname)))
      = some (some rec.hostname)
  rw [headersLiteral_host inbound rec.hostname hw]

/-- C5 witness: the inbound request supplies its own host header and the
outbound host header is still the target's hostname. -/
theorem c5_host_header_witness :
    (outboundHeaders (forwardRequest "https://api.example.com/data" "POST"
        [("host", "proxy.internal"), ("user-agent", "curl/8.0")] "x")).map (findCIVal "host")
      = some (some "api.example.com") :=
  c5_host_header "https://api.example.com/data" "POST" "x"
    [("host", "proxy.internal"), ("user-agent", "curl/8.0")]
    ⟨"https", "api.example.com", "", "/data", ""⟩ (by decide) (by decide)

/-- C6.  For every forwarded request the outgoing user-agent header is the
fixed proxy identity string, overriding any inbound user-agent. -/
theorem c6_user_agent_header (u method body : String) (inbound : List (String × String))
    (rec : URLRec) (hp : parseURL u = some rec) (hw : WFHeaders inbound) :
    (outboundHeaders (forwardRequest u method inbound body)).map (findCIVal "user-agent")
      = some (some userAgentValue) := by
  rw [forwardRequest_eq_call u method body inbound rec hp]
  show some (findCIVal "user-agent" (applyHeaders [] (headersLiteral inbound rec.hostname)))
      = some (some userAgentValue)
  rw [headersLiteral_userAgent inbound rec.hostname hw]

/-- C6 witness: an inbound user-agent is overridden. -/
theorem c6_user_agent_header_witness :
    (outboundHeaders (forwardRequest "https://api.example.com/data" "POST"
        [("user-agent", "curl/8.0"), ("authorization", "Bearer t")] "")).map
        (findCIVal "user-agent")
      = some (some userAgentValue) :=
  c6_user_agent_header "https://api.example.com/data" "POST" ""
    [("user-agent", "curl/8.0"), ("authorization", "Bearer t")]
    ⟨"https", "api.example.com", "", "/data", ""⟩ (by decide) (by decide)

/-- C7.  Every forwarded request whose outbound attempt fails with a network
error is answered 502 with the structured body: error field the fixed string,
message field the concrete failure message. -/
theorem c7_network_error_502 (u method body msg : String)
    (inbound : List (String × String)) (rec : URLRec) (hp : parseURL u = some rec) :
    runForward (forwardRequest u method inbound body) (.fails msg)
      = Outcome.reply
          ⟨502, corsBase,
            .json [("error", "Failed to reach external URL"), ("message", msg)]⟩ := by
  rw [forwardRequest_eq_call u method body inbound rec hp]
  rfl

/-- C7 witness at the spec's concrete scenario: nothing listens on
127.0.0.1:1 and the connection is refused. -/
theorem c7_network_error_502_witness :
    runForward (forwardRequest "http://127.0.0.1:1/" "GET" [] "")
        (.fails "connect ECONNREFUSED 127.0.0.1:1")
      = Outcome.reply
          ⟨502, corsBase,
            .json [("error", "Failed to reach external URL"),
                   ("message", "connect ECONNREFUSED 127.0.0.1:1")]⟩ :=
  c7_network_error_502 "http://127.0.0.1:1/" "GET" "" "connect ECONNREFUSED 127.0.0.1:1" []
    ⟨"http", "127.0.0.1", "1", "/", ""⟩ (by decide)

/-- C8.  A request without the url query parameter is answered 400 with the
Missing URL parameter body carrying usage and example fields; the respond
step is terminal, so no outbound request is ever constructed. -/
theorem c8_missing_url_400 :
    handleProxy none
      = HandleStep.respond 400
          (.json [("error", "Missing URL parameter"),
                  ("usage", "POST /proxy?url=https://external-api-url"),
                  ("example", "POST /proxy?url=https://api.example.com/endpoint")]) := by
  decide

/-- C9.  A present-but-empty url value takes the same branch as a missing
one, because the presence check is JS truthiness and the empty string is
falsy: the answer is the Missing URL parameter 400, not the Invalid URL
format one. -/
theorem c9_empty_url_as_missing :
    handleProxy (some "") = handleProxy none ∧
    handleProxy (some "") = HandleStep.respond 400 missingUrlBody ∧
    handleProxy (some "")
      ≠ HandleStep.respond 400 (.json [("error", "Invalid URL format"), ("target", "")]) := by
  decide

/-- C10.  If isValidUrl accepted the target string, re-parsing it in
forwardRequest yields the same parse (parsing is a pure function), so the
catch branch — the only status-500 path, reachable only through a new URL
throw — is not taken. -/
theorem c10_no_internal_fault (u method body : String)
    (inbound : List (String × String)) (hv : isValidUrl u = true) :
    isInternalFault (forwardRequest u method inbound body) = false := by
  unfold isValidUrl at hv
  obtain ⟨rec, hp⟩ := Option.isSome_iff_exists.mp hv
  rw [forwardRequest_eq_call u method body inbound rec hp]
  rfl

/-- C10 witness. -/
theorem c10_no_internal_fault_witness :
    isValidUrl "http://example.com/api" = true ∧
    isInternalFault (forwardRequest "http://example.com/api" "GET" [] "") = false :=
  ⟨by decide, c10_no_internal_fault "http://example.com/api" "GET" "" [] (by decide)⟩

end Proxy
